import Mathlib

/-!
Verification development for the parallel filesystem traversal tool in
source/Main.cpp (a find-like scanner with worker threads, a shared work
stack, a filter pipeline and print/exec/copy/unlink actions).

The C++ code is shallowly embedded: machine integers become Nat (the
relevant comparisons never overflow because stat fields are modelled as
the mathematical values the kernel returns in uint64 range), strings
become List Char, fallible calls return Option, and the global
Statistics singleton is threaded explicitly through the traversal.
External POSIX calls (readdir, fstatat, lgetxattr, opendir) are
modelled by per-node oracle fields of the filesystem tree: each node
records what the corresponding syscall would report for it.
-/

set_option autoImplicit false

namespace Elfindo

/-- Directory-entry type tag as reported by readdir's d_type
(DT_BLK, DT_CHR, DT_DIR, DT_FIFO, DT_LNK, DT_REG, DT_SOCK, DT_UNKNOWN). -/
inductive DType where
  | blk | chr | dir | fifo | lnk | reg | sock | unknown
deriving DecidableEq, Repr

/-- The stat fields the program reads (Main.cpp uses st_mode, st_dev,
st_uid, st_gid, st_size and the tv_sec parts of st_atim/ctim/mtim for
its decisions; the remaining fields are only printed). -/
structure StatBuf where
  mode : Nat
  dev : Nat
  uid : Nat
  gid : Nat
  size : Nat
  atime : Nat
  ctime : Nat
  mtime : Nat
deriving DecidableEq, Repr

/-- POSIX st_mode file-type mask S_IFMT (octal 0170000). -/
def S_IFMT : Nat := 61440
/-- S_IFDIR (octal 0040000). -/
def S_IFDIR : Nat := 16384
/-- S_IFBLK (octal 0060000). -/
def S_IFBLK : Nat := 24576
/-- S_IFCHR (octal 0020000). -/
def S_IFCHR : Nat := 8192
/-- S_IFIFO (octal 0010000). -/
def S_IFIFO : Nat := 4096
/-- S_IFLNK (octal 0120000). -/
def S_IFLNK : Nat := 40960
/-- S_IFREG (octal 0100000). -/
def S_IFREG : Nat := 32768
/-- S_IFSOCK (octal 0140000). -/
def S_IFSOCK : Nat := 49152

/-- POSIX S_ISDIR macro. -/
def S_ISDIR (m : Nat) : Bool := m &&& S_IFMT == S_IFDIR
/-- POSIX S_ISBLK macro. -/
def S_ISBLK (m : Nat) : Bool := m &&& S_IFMT == S_IFBLK
/-- POSIX S_ISCHR macro. -/
def S_ISCHR (m : Nat) : Bool := m &&& S_IFMT == S_IFCHR
/-- POSIX S_ISFIFO macro. -/
def S_ISFIFO (m : Nat) : Bool := m &&& S_IFMT == S_IFIFO
/-- POSIX S_ISLNK macro. -/
def S_ISLNK (m : Nat) : Bool := m &&& S_IFMT == S_IFLNK
/-- POSIX S_ISREG macro. -/
def S_ISREG (m : Nat) : Bool := m &&& S_IFMT == S_IFREG
/-- POSIX S_ISSOCK macro. -/
def S_ISSOCK (m : Nat) : Bool := m &&& S_IFMT == S_IFSOCK

/-- The ~0ULL sentinel used by Config for "filter not set"
(filterUID, filterGID, filterMountID in Main.cpp). -/
def U64MAX : Nat := 2 ^ 64 - 1

/-- The NUL character: Config.searchType 0 means "no type filter". -/
def nullChar : Char := Char.ofNat 0
/-- Path separator appended by scan() between dir path and entry name. -/
def slashChar : Char := Char.ofNat 47
/-- The single-quote character used by execSystemCommand. -/
def quoteChar : Char := Char.ofNat 39
/-- The space appended after each quoted exec argument. -/
def spaceChar : Char := Char.ofNat 32
/-- Opening brace of the EXEC_ARG_PATH_PLACEHOLDER token. -/
def braceL : Char := Char.ofNat 123
/-- Closing brace of the EXEC_ARG_PATH_PLACEHOLDER token. -/
def braceR : Char := Char.ofNat 125

/-- One exact/less/greater filter triple of Config.filterSizeAndTime.
The C struct keeps a uint64 value field plus a bit in
filterSizeAndTimeFlags per member; a set bit together with its value is
modelled as `some value`, a clear bit as `none`. -/
structure FilterTriple where
  exact : Option Nat
  less : Option Nat
  greater : Option Nat
deriving DecidableEq, Repr

/-- Triple with all flags clear. -/
def FilterTriple.unset : FilterTriple := ⟨none, none, none⟩

/-- The Config singleton of Main.cpp, restricted to the fields the
scan/filter/action core reads. cmdLineStrVec is the nested
ExternalProgExec vector of --exec words. -/
structure Config where
  numThreads : Nat := 16
  depthSearchStartThreshold : Nat := 0
  statAll : Bool := false
  checkACLs : Bool := false
  printJSON : Bool := false
  maxDirDepth : Nat := 65535
  searchType : Char := nullChar
  print0 : Bool := false
  nameFilterVec : List (List Char) := []
  pathFilter : List Char := []
  sizeF : FilterTriple := FilterTriple.unset
  mtimeF : FilterTriple := FilterTriple.unset
  ctimeF : FilterTriple := FilterTriple.unset
  atimeF : FilterTriple := FilterTriple.unset
  filterUID : Nat := U64MAX
  filterGID : Nat := U64MAX
  filterMountID : Nat := U64MAX
  copyDestDir : List Char := []
  printEntriesDisabled : Bool := false
  unlinkFiles : Bool := false
  copyTimeUpdate : Bool := true
  cmdLineStrVec : List (List Char) := []
  quitAfterFirstMatch : Bool := false

/-- The Statistics singleton's atomic counters, threaded explicitly. -/
structure ScanStats where
  numDirsFound : Nat := 0
  numFilesFound : Nat := 0
  numUnknownFound : Nat := 0
  numFilterMatches : Nat := 0
  numStatCalls : Nat := 0
  numAccessACLsFound : Nat := 0
  numDefaultACLsFound : Nat := 0
  numErrors : Nat := 0
deriving DecidableEq, Repr

/-- All-zero statistics at program start. -/
def zeroStats : ScanStats := {}

/-! ## EntryTyper: type tags from d_type or st_mode -/

/-- The d_type-to-search-type map of filterPrintEntryByType's first
switch (values from find(1)); DT_UNKNOWN has no case there, the
matchType char stays 0. -/
def dtypeToFindChar : DType → Char
  | DType.blk => 'b'
  | DType.chr => 'c'
  | DType.dir => 'd'
  | DType.fifo => 'p'
  | DType.lnk => 'l'
  | DType.reg => 'f'
  | DType.sock => 's'
  | DType.unknown => nullChar

/-- The st_mode-to-search-type chain of filterPrintEntryByType's stat
branch; an unrecognized mode leaves matchType at 0. -/
def modeToMatchChar (m : Nat) : Char :=
  if S_ISBLK m then 'b'
  else if S_ISCHR m then 'c'
  else if S_ISDIR m then 'd'
  else if S_ISFIFO m then 'p'
  else if S_ISLNK m then 'l'
  else if S_ISREG m then 'f'
  else if S_ISSOCK m then 's'
  else nullChar

/-- The st_mode-to-tag chain shared by printEntry's stat branch:
unrecognized modes fall back to the unknown tag. -/
def modeToDType (m : Nat) : DType :=
  if S_ISBLK m then DType.blk
  else if S_ISCHR m then DType.chr
  else if S_ISDIR m then DType.dir
  else if S_ISFIFO m then DType.fifo
  else if S_ISLNK m then DType.lnk
  else if S_ISREG m then DType.reg
  else if S_ISSOCK m then DType.sock
  else DType.unknown

/-! ## FilterPipeline -/

/-- filterPrintEntryByType of Main.cpp: no filter passes everything; a
present dirent hint other than DT_UNKNOWN decides; otherwise the stat
mode decides; with neither source of type information the entry is
rejected (after a diagnostic). -/
def filterPrintEntryByType (cfg : Config) (dirEntry : Option DType)
    (statBuf : Option StatBuf) : Bool :=
  if cfg.searchType == nullChar then true
  else
    match dirEntry with
    | some d =>
      if d != DType.unknown then dtypeToFindChar d == cfg.searchType
      else
        match statBuf with
        | some s => modeToMatchChar s.mode == cfg.searchType
        | none => false
    | none =>
      match statBuf with
      | some s => modeToMatchChar s.mode == cfg.searchType
      | none => false

/-- Glob match with the * and ? wildcards.
Modelled from the spec: the name/path filters call the external libc
fnmatch(3) with flags 0; the spec and the usage text describe the
accepted patterns as containing the wildcards * (any sequence) and ?
(any single character), which is what this recursion implements. -/
def fnmatchChars (pat : List Char) (s : List Char) : Bool :=
  match pat, s with
  | [], [] => true
  | [], _ :: _ => false
  | '*' :: ps, [] => fnmatchChars ps []
  | '*' :: ps, c :: ss => fnmatchChars ps (c :: ss) || fnmatchChars ('*' :: ps) ss
  | '?' :: ps, _ :: ss => fnmatchChars ps ss
  | '?' :: _, [] => false
  | p :: ps, c :: ss => p == c && fnmatchChars ps ss
  | _ :: _, [] => false
termination_by pat.length + s.length

/-- Basename extraction.
Modelled from the spec: filterPrintEntryByName uses the external
std::filesystem::path(...).filename(); the spec says "extract
basename", i.e. the suffix after the last slash. -/
def basenameOf (p : List Char) : List Char :=
  (p.reverse.takeWhile (fun c => c != slashChar)).reverse

/-- filterPrintEntryByName of Main.cpp: with a non-empty nameFilterVec
the basename must match at least one of the patterns. -/
def filterPrintEntryByName (cfg : Config) (entryPath : List Char) : Bool :=
  if cfg.nameFilterVec.isEmpty then true
  else cfg.nameFilterVec.any (fun pat => fnmatchChars pat (basenameOf entryPath))

/-- The isFile test shared verbatim by filterPrintEntryByPath and
filterPrintEntryBySizeOrTime: a present hint that is neither DT_UNKNOWN
nor DT_DIR, or a present stat whose mode is not a directory. -/
def entryIsFile (dirEntry : Option DType) (statBuf : Option StatBuf) : Bool :=
  (match dirEntry with
   | some d => d != DType.unknown && d != DType.dir
   | none => false) ||
  (match statBuf with
   | some s => !S_ISDIR s.mode
   | none => false)

/-- filterPrintEntryByPath of Main.cpp: full-path glob, files only. -/
def filterPrintEntryByPath (cfg : Config) (entryPath : List Char)
    (dirEntry : Option DType) (statBuf : Option StatBuf) : Bool :=
  if cfg.pathFilter.isEmpty then true
  else if !entryIsFile dirEntry statBuf then false
  else fnmatchChars cfg.pathFilter entryPath

/-- One expansion of the CHECK_EXACT_LESS_GREATER_VAL macro: return
false when a set exact flag sees an unequal field, a set less flag sees
field >= bound, or a set greater flag sees field <= bound. -/
def checkExactLessGreaterVal (t : FilterTriple) (field : Nat) : Bool :=
  (match t.exact with
   | some v => field == v
   | none => true) &&
  (match t.less with
   | some v => field < v
   | none => true) &&
  (match t.greater with
   | some v => v < field
   | none => true)

/-- Non-zero test on Config.filterSizeAndTime.filterSizeAndTimeFlags:
at least one of the twelve FILTER_FLAG bits is set. -/
def hasSizeTimeFilterFlags (cfg : Config) : Bool :=
  cfg.sizeF.exact.isSome || cfg.sizeF.less.isSome || cfg.sizeF.greater.isSome ||
  cfg.mtimeF.exact.isSome || cfg.mtimeF.less.isSome || cfg.mtimeF.greater.isSome ||
  cfg.ctimeF.exact.isSome || cfg.ctimeF.less.isSome || cfg.ctimeF.greater.isSome ||
  cfg.atimeF.exact.isSome || cfg.atimeF.less.isSome || cfg.atimeF.greater.isSome

/-- filterPrintEntryBySizeOrTime of Main.cpp: pass when no flag is set;
otherwise non-files are rejected, missing stat info is rejected, and
the four macro expansions run in source order (size, atime, ctime,
mtime). -/
def filterPrintEntryBySizeOrTime (cfg : Config) (dirEntry : Option DType)
    (statBuf : Option StatBuf) : Bool :=
  if !hasSizeTimeFilterFlags cfg then true
  else if !entryIsFile dirEntry statBuf then false
  else
    match statBuf with
    | none => false
    | some s =>
      checkExactLessGreaterVal cfg.sizeF s.size &&
      checkExactLessGreaterVal cfg.atimeF s.atime &&
      checkExactLessGreaterVal cfg.ctimeF s.ctime &&
      checkExactLessGreaterVal cfg.mtimeF s.mtime

/-- filterPrintEntryByUIDAndGID of Main.cpp: a set UID/GID filter
(sentinel ~0ULL means unset) requires stat info and an equal field. -/
def filterPrintEntryByUIDAndGID (cfg : Config) (statBuf : Option StatBuf) : Bool :=
  (if cfg.filterUID != U64MAX then
    match statBuf with
    | some s => s.uid == cfg.filterUID
    | none => false
   else true) &&
  (if cfg.filterGID != U64MAX then
    match statBuf with
    | some s => s.gid == cfg.filterGID
    | none => false
   else true)

/-! ## ActionPipeline: exec command construction -/

/-- Index of the first occurrence of the two-character placeholder
token in a string, as std::string::find reports it from position 0. -/
def findPlaceholder : List Char → Option Nat
  | a :: b :: rest =>
    if a == braceL && b == braceR then some 0
    else (findPlaceholder (b :: rest)).map (· + 1)
  | _ => none

/-- std::string::find(EXEC_ARG_PATH_PLACEHOLDER, pos): first occurrence
at an index >= pos. -/
def findFrom (s : List Char) (pos : Nat) : Option Nat :=
  (findPlaceholder (s.drop pos)).map (· + pos)

/-- std::string::replace(pos, 2, path). -/
def replaceAtPos (s : List Char) (pos : Nat) (path : List Char) : List Char :=
  s.take pos ++ path ++ s.drop (pos + 2)

theorem findPlaceholder_bounds {s : List Char} {q : Nat}
    (h : findPlaceholder s = some q) : q + 2 ≤ s.length := by
  induction s using findPlaceholder.induct generalizing q with
  | case1 a b rest hab =>
    rw [findPlaceholder] at h
    simp [hab] at h
    subst h
    simp
  | case2 a b rest hab ih =>
    rw [findPlaceholder] at h
    simp [hab] at h
    obtain ⟨q0, hq0, rfl⟩ := h
    have := ih hq0
    simpa using Nat.succ_le_succ this
  | case3 t ht =>
    rw [findPlaceholder] at h
    · exact absurd h (by simp)
    · exact ht

theorem findFrom_bounds {s : List Char} {pos q : Nat}
    (h : findFrom s pos = some q) : pos ≤ q ∧ q + 2 ≤ s.length := by
  unfold findFrom at h
  obtain ⟨q0, hq0, rfl⟩ := Option.map_eq_some'.mp h
  have hb := findPlaceholder_bounds hq0
  rw [List.length_drop] at hb
  omega

/-- The find/replace loop of replacePathPlaceholerWithPath in Main.cpp:
while a placeholder occurs at or after pos, splice the path in at the
occurrence and advance pos past the inserted path. -/
def replaceLoop (s : List Char) (path : List Char) (pos : Nat) : List Char :=
  match h : findFrom s pos with
  | none => s
  | some q => replaceLoop (replaceAtPos s q path) path (q + path.length)
termination_by s.length + 1 - pos
decreasing_by
  have hb := findFrom_bounds h
  unfold replaceAtPos
  simp only [List.length_append, List.length_take, List.length_drop]
  omega

/-- replacePathPlaceholerWithPath of Main.cpp (the subject string is
passed by reference and mutated; here the result is returned). -/
def replacePathPlaceholerWithPath (subject : List Char) (path : List Char) : List Char :=
  replaceLoop subject path 0

/-- The quoting applied by execSystemCommand to each command-line word:
a single quote, the word, a single quote and a space. -/
def quoteWrap (s : List Char) : List Char :=
  quoteChar :: (s ++ [quoteChar, spaceChar])

/-- The command string built by execSystemCommand of Main.cpp: the
executable (element 0) is quoted verbatim, every later element gets the
placeholder substitution and is then quoted; an empty cmdLineStrVec
means nothing is executed. -/
def execBuildCommand (cmdLineStrVec : List (List Char)) (entryPath : List Char) : List Char :=
  match cmdLineStrVec with
  | [] => []
  | exe :: args =>
    quoteWrap exe ++
      (args.map (fun a => quoteWrap (replacePathPlaceholerWithPath a entryPath))).flatten

/-! ## ACL checking -/

/-- Outcome of one lgetxattr query: success (length >= 0), the normal
ENODATA/ENOTSUP absence, or another error (diagnostic only). -/
inductive XattrResult where
  | success | noData | err
deriving DecidableEq, Repr

/-- checkACLs of Main.cpp, as a Statistics update: a successful
system.posix_acl_access query increments numAccessACLsFound, and for a
directory a successful system.posix_acl_default query increments
numAccessACLsFound again (sic: Main.cpp line 310 bumps the access
counter in the default-ACL branch). -/
def checkACLsUpdate (cfg : Config) (isDirectory : Bool)
    (accessRes defaultRes : XattrResult) (st : ScanStats) : ScanStats :=
  if !cfg.checkACLs then st
  else
    let st1 :=
      if accessRes = XattrResult.success then
        { st with numAccessACLsFound := st.numAccessACLsFound + 1 }
      else st
    if isDirectory then
      if defaultRes = XattrResult.success then
        { st1 with numAccessACLsFound := st1.numAccessACLsFound + 1 }
      else st1
    else st1

/-! ## Per-entry processing (filters, then print/exec/copy/unlink) -/

/-- What copyEntry/unlinkEntry find when they read statBuf->st_mode:
either the mode of a present stat buffer, or a dereference of the NULL
pointer that scan() passes when the stat call failed. -/
inductive ModeRead where
  | ok (mode : Nat)
  | nullDeref
deriving DecidableEq, Repr

/-- The st_mode read at the top of copyEntry (Main.cpp line 656),
reached whenever copyDestDir is non-empty. -/
def copyEntryModeRead (cfg : Config) (statBuf : Option StatBuf) : Option ModeRead :=
  if cfg.copyDestDir.isEmpty then none
  else some (match statBuf with
    | some s => ModeRead.ok s.mode
    | none => ModeRead.nullDeref)

/-- The st_mode read at the top of unlinkEntry (Main.cpp line 889),
reached whenever unlinkFiles is set. -/
def unlinkEntryModeRead (cfg : Config) (statBuf : Option StatBuf) : Option ModeRead :=
  if !cfg.unlinkFiles then none
  else some (match statBuf with
    | some s => ModeRead.ok s.mode
    | none => ModeRead.nullDeref)

/-- Observable per-entry effects of processDiscoveredEntry: the record
printEntry emits to stdout (abstracted to the entry path; plain and
JSON mode both emit exactly one record when printing is enabled), the
shell command execSystemCommand builds, the st_mode reads of the copy
and unlink stages, and whether numFilterMatches was incremented. -/
structure EntryEffects where
  printedRec : Option (List Char)
  execCmd : Option (List Char)
  copyModeRead : Option ModeRead
  unlinkModeRead : Option ModeRead
  matched : Bool
deriving DecidableEq, Repr

/-- Effects of an entry rejected by a filter: none. -/
def noEffects : EntryEffects :=
  { printedRec := none, execCmd := none, copyModeRead := none,
    unlinkModeRead := none, matched := false }

/-- processDiscoveredEntry of Main.cpp: the five filters run in source
order with early return; an accepted entry is printed (unless
printEntriesDisabled), exec-ed (if cmdLineStrVec is non-empty), copied,
unlinked, and counted in numFilterMatches. The caller applies the
matched flag to the statistics. -/
def processDiscoveredEntry (cfg : Config) (entryPath : List Char)
    (dirEntry : Option DType) (statBuf : Option StatBuf) : EntryEffects :=
  if filterPrintEntryByType cfg dirEntry statBuf &&
     filterPrintEntryByName cfg entryPath &&
     filterPrintEntryByPath cfg entryPath dirEntry statBuf &&
     filterPrintEntryBySizeOrTime cfg dirEntry statBuf &&
     filterPrintEntryByUIDAndGID cfg statBuf then
    { printedRec := if cfg.printEntriesDisabled then none else some entryPath,
      execCmd := if cfg.cmdLineStrVec.isEmpty then none
                 else some (execBuildCommand cfg.cmdLineStrVec entryPath),
      copyModeRead := copyEntryModeRead cfg statBuf,
      unlinkModeRead := unlinkEntryModeRead cfg statBuf,
      matched := true }
  else noEffects

/-! ## Walker: the filesystem model and scan()

The filesystem a run traverses is a finite tree. Each node carries the
answers the POSIX layer would give for it: the d_type readdir reports,
the stat buffer fstatat/lstat returns (`none` models a failed call),
the two lgetxattr outcomes, and whether opendir on it succeeds (the
tolerated EACCES/ENOENT failure; the fatal errno path kills the whole
process group and is outside this model). The dot and dot-dot entries
that scan() skips are not part of the children lists. -/

/-- Per-node syscall oracle. -/
structure EntryMeta where
  dtype : DType
  statResult : Option StatBuf
  aclAccess : XattrResult
  aclDefault : XattrResult
  openOk : Bool
deriving DecidableEq, Repr

/-- A node of the scanned directory tree: its name within the parent
directory, its syscall oracle, and its children (meaningful when the
node is a directory). -/
inductive FsNode where
  | mk (name : List Char) (meta : EntryMeta) (children : List FsNode)

/-- Name component of a node. -/
def FsNode.name : FsNode → List Char
  | FsNode.mk n _ _ => n

/-- Syscall oracle of a node. -/
def FsNode.meta : FsNode → EntryMeta
  | FsNode.mk _ m _ => m

/-- Children of a node. -/
def FsNode.children : FsNode → List FsNode
  | FsNode.mk _ _ c => c

/-- Number of nodes in a forest (the induction measure of the
traversal proofs). -/
def fsSizeList : List FsNode → Nat
  | [] => 0
  | FsNode.mk _ _ children :: rest => 1 + fsSizeList children + fsSizeList rest

/-- The stat decision of scan() at Main.cpp line 1166: fstatat is
issued iff statAll is configured or the dirent type is DT_UNKNOWN. -/
def needStat (cfg : Config) (dtype : DType) : Bool :=
  cfg.statAll || dtype == DType.unknown

/-- One processed entry of a run, with ghost observation fields: the
constructed entry path, the entry depth relative to its scan root
(scan paths have depth 0), the st_dev of the directory it was found in
(`none` for scan roots), the entry's own st_dev as the filesystem
holds it, the dirent hint handed to processDiscoveredEntry (`none` for
scan roots), whether the stat syscall was issued, the stat buffer
handed to the filter/action pipeline, and the pipeline effects. -/
structure Event where
  path : List Char
  depth : Nat
  parentDev : Option Nat
  entryDev : Option Nat
  hint : Option DType
  statCalled : Bool
  statUsed : Option StatBuf
  eff : EntryEffects
deriving DecidableEq, Repr

/-- Count the numFilterMatches increment of processDiscoveredEntry. -/
def applyMatched (eff : EntryEffects) (st : ScanStats) : ScanStats :=
  if eff.matched then { st with numFilterMatches := st.numFilterMatches + 1 } else st

/-- The statistics scan() updates before the dir/file branch: a
numStatCalls increment when fstatat is issued (line 1168) and a
numUnknownFound increment for DT_UNKNOWN entries (line 1184). -/
def preStats (cfg : Config) (meta : EntryMeta) (st : ScanStats) : ScanStats :=
  let a := if needStat cfg meta.dtype then
    { st with numStatCalls := st.numStatCalls + 1 } else st
  if meta.dtype == DType.unknown then
    { a with numUnknownFound := a.numUnknownFound + 1 } else a

/-- The statistics scan() updates inside the dir/file branch:
numDirsFound or numFilesFound, the checkACLs counters, and the
numFilterMatches increment of processDiscoveredEntry. -/
def entryStats (cfg : Config) (meta : EntryMeta) (isDir : Bool)
    (eff : EntryEffects) (st : ScanStats) : ScanStats :=
  let a := if isDir then { st with numDirsFound := st.numDirsFound + 1 }
    else { st with numFilesFound := st.numFilesFound + 1 }
  applyMatched eff (checkACLsUpdate cfg isDir meta.aclAccess meta.aclDefault a)

/-- The mount-ID half of the descend decision of scan() (lines
1199-1200): unset filter always descends; a set filter requires a
usable stat buffer whose st_dev equals filterMountID. -/
def doDescendMountOf (cfg : Config) (statOpt : Option StatBuf) : Bool :=
  if cfg.filterMountID == U64MAX then true
  else match statOpt with
    | some s => cfg.filterMountID == s.dev
    | none => false

/-- The body of scan() of Main.cpp from the readdir loop onward,
recursing over the remaining entries of the directory at dirPath.
dirDepth is the depth of the entries of this directory; parentDev is a
ghost copy of the directory's own st_dev. Both the breadth-mode
sharedStack.push and the depth-mode inline recursion of lines
1202-1207 are modelled as the same recursive descent (the
depthSearchStartThreshold heuristic only chooses which worker scans a
pushed directory, never whether it is scanned), so the descent inlines
the prologue of scan(): the quitAfterFirstMatch early return and the
opendir failure return. -/
def scanFrom (cfg : Config) (dirPath : List Char) (dirDepth : Nat)
    (parentDev : Option Nat) (entries : List FsNode) (st : ScanStats) :
    ScanStats × List Event :=
  match entries with
  | [] => (st, [])
  | FsNode.mk name meta children :: rest =>
    let doStat := needStat cfg meta.dtype
    let statOpt : Option StatBuf := if doStat then meta.statResult else none
    let entryPath := dirPath ++ slashChar :: name
    let isDirEntry : Bool :=
      meta.dtype == DType.dir ||
        (meta.dtype == DType.unknown &&
          (match statOpt with
           | some s => S_ISDIR s.mode
           | none => false))
    let eff := processDiscoveredEntry cfg entryPath (some meta.dtype) statOpt
    let st5 := entryStats cfg meta isDirEntry eff (preStats cfg meta st)
    let ev : Event :=
      { path := entryPath, depth := dirDepth, parentDev := parentDev,
        entryDev := meta.statResult.map StatBuf.dev, hint := some meta.dtype,
        statCalled := doStat, statUsed := statOpt, eff := eff }
    let doDescend : Bool := isDirEntry && doDescendMountOf cfg statOpt &&
      decide (dirDepth < cfg.maxDirDepth)
    let inner :=
      if doDescend then
        if cfg.quitAfterFirstMatch && decide (0 < st5.numFilterMatches) then (st5, [])
        else if !meta.openOk then
          ({ st5 with numErrors := st5.numErrors + 1 }, [])
        else
          scanFrom cfg entryPath (dirDepth + 1) (meta.statResult.map StatBuf.dev)
            children st5
      else (st5, [])
    let outer := scanFrom cfg dirPath dirDepth parentDev rest inner.1
    (outer.1, ev :: (inner.2 ++ outer.2))

/-- scan(dirPath, dirDepth) of Main.cpp on the directory node `node`:
the quitAfterFirstMatch early return, the opendir call (its tolerated
failure bumps numErrors and returns), then the readdir loop. -/
def scanDir (cfg : Config) (dirPath : List Char) (node : FsNode)
    (dirDepth : Nat) (st : ScanStats) : ScanStats × List Event :=
  if cfg.quitAfterFirstMatch && decide (0 < st.numFilterMatches) then (st, [])
  else if !node.meta.openOk then ({ st with numErrors := st.numErrors + 1 }, [])
  else scanFrom cfg dirPath dirDepth (node.meta.statResult.map StatBuf.dev)
    node.children st

/-- A user-given scan path and the filesystem subtree it names. -/
structure RootSpec where
  path : List Char
  node : FsNode

/-- The scan-path loop of main() (Main.cpp lines 1954-1997): lstat each
path (a failure skips it; the fatal non-EACCES/ENOENT branch kills the
process and is outside the model), run the pipeline on it at depth 0
with a NULL dirent, and collect the directories pushed onto the shared
stack (pushed only when 0 < maxDirDepth; the trailing-slash trimming
only normalizes the path string). -/
def processRoots (cfg : Config) (roots : List RootSpec) (st : ScanStats) :
    ScanStats × List Event × List RootSpec :=
  match roots with
  | [] => (st, [], [])
  | r :: rest =>
    match r.node.meta.statResult with
    | none =>
      processRoots cfg rest st
    | some sb =>
      let eff := processDiscoveredEntry cfg r.path none (some sb)
      let st1 := applyMatched eff st
      let ev : Event :=
        { path := r.path, depth := 0, parentDev := none,
          entryDev := some sb.dev, hint := none,
          statCalled := true, statUsed := some sb, eff := eff }
      let pushedHere : List RootSpec :=
        if S_ISDIR sb.mode && decide (0 < cfg.maxDirDepth) then [r] else []
      let out := processRoots cfg rest st1
      (out.1, ev :: out.2.1, pushedHere ++ out.2.2)

/-- The worker phase: every directory pushed by main() is popped by
some worker and handed to scan() at dirDepth 1 (its children are the
pushed directory's children, which have depth 1). The workers' pop
order only permutes which thread scans which subtree; the sequential
fold fixes one order. -/
def runThreads (cfg : Config) (pushed : List RootSpec) (st : ScanStats) :
    ScanStats × List Event :=
  match pushed with
  | [] => (st, [])
  | r :: rest =>
    let first := scanDir cfg r.path r.node 1 st
    let out := runThreads cfg rest first.1
    (out.1, first.2 ++ out.2)

/-- A whole run of main(): process the scan paths, then let the worker
threads drain the shared stack. -/
def runScan (cfg : Config) (roots : List RootSpec) (st : ScanStats) :
    ScanStats × List Event :=
  let phase1 := processRoots cfg roots st
  let phase2 := runThreads cfg phase1.2.2 phase1.1
  (phase2.1, phase1.2.1 ++ phase2.2)

/-! ## SharedStack quiescence protocol

The mutex of SharedStack makes every push/popWait critical section
atomic, so the worker phase is a transition system whose steps are the
critical sections. Worker identity plays no role in the termination
argument, so the state counts the workers in each of their three
phases: executing scan() outside popWait (working), blocked inside
popWait's wait loop (waiting), and unwound by ScanDoneException
(done). numWaiters is the SharedStack counter of the same name; the
stack holds the queued dirPath items (abstracted to Nat). -/

/-- Global state of the n workers and the SharedStack. -/
structure QState where
  numWorking : Nat
  numWaiting : Nat
  numDone : Nat
  stack : List Nat
  numWaiters : Nat
deriving DecidableEq, Repr

/-- The terminal condition a waiter evaluates inside popWait under the
mutex (Main.cpp lines 225-227): the stack is empty and
numWaiters == config.numThreads. -/
def quiescenceObserved (n : Nat) (s : QState) : Prop :=
  0 < s.numWaiting ∧ s.stack = [] ∧ s.numWaiters = n

/-- The atomic critical sections of the protocol, for n = numThreads.
Each constructor names the Main.cpp lines it models. -/
inductive QStep (n : Nat) : QState → QState → Prop where
  /-- SharedStack::push (lines 201-210), called from scan(): only a
  worker currently executing scan() can push. -/
  | pushItem (s : QState) (item : Nat) (h : 0 < s.numWorking) :
      QStep n s { s with stack := item :: s.stack }
  /-- Entry into popWait (lines 221-223): a worker arriving from
  threadStart's loop increments numWaiters and joins the wait loop. -/
  | enterPopWait (s : QState) (h : 0 < s.numWorking) :
      QStep n s { s with numWorking := s.numWorking - 1,
                         numWaiting := s.numWaiting + 1,
                         numWaiters := s.numWaiters + 1 }
  /-- The non-empty-stack exit of popWait (lines 237-250): a waiter
  decrements numWaiters, pops the top item and resumes scan(). -/
  | popItem (s : QState) (x : Nat) (rest : List Nat)
      (h : 0 < s.numWaiting) (hs : s.stack = x :: rest) :
      QStep n s { s with numWorking := s.numWorking + 1,
                         numWaiting := s.numWaiting - 1,
                         numWaiters := s.numWaiters - 1,
                         stack := rest }
  /-- The terminal branch of popWait (lines 227-231): a waiter that
  observes the empty stack with numWaiters == numThreads broadcasts
  the condvar and throws ScanDoneException; numWaiters is deliberately
  not decremented. -/
  | scanDone (s : QState) (h : 0 < s.numWaiting) (hempty : s.stack = [])
      (hq : s.numWaiters = n) :
      QStep n s { s with numWaiting := s.numWaiting - 1,
                         numDone := s.numDone + 1 }

/-- The state right after main() spawned the n workers: all of them
are about to call popWait for the first time from threadStart, i.e.
executing outside popWait; the stack holds what main() pushed. -/
def initQState (n : Nat) (stack0 : List Nat) : QState :=
  { numWorking := n, numWaiting := 0, numDone := 0,
    stack := stack0, numWaiters := 0 }

/-- Reflexive-transitive closure of QStep. -/
inductive QReach (n : Nat) : QState → QState → Prop where
  | refl (s : QState) : QReach n s s
  | tail {s t u : QState} : QReach n s t → QStep n t u → QReach n s u

/-- States of a worker-phase run with n workers started on stack0. -/
def QReachable (n : Nat) (stack0 : List Nat) (s : QState) : Prop :=
  QReach n (initQState n stack0) s

/-- The inductive invariant of the protocol: the three phases
partition the n workers, numWaiters counts the waiting and the done
workers (done workers never decremented it), and once any worker is
done the stack is empty and nobody is executing scan(). -/
def QInv (n : Nat) (s : QState) : Prop :=
  s.numWorking + s.numWaiting + s.numDone = n ∧
  s.numWaiters = s.numWaiting + s.numDone ∧
  (0 < s.numDone → s.stack = [] ∧ s.numWorking = 0)

/-! ## Claim-side definitions

These definitions restate sentences of the specification in its own
words, to be compared against the source-derived definitions above. -/

/-- Spec 4.B, rule of precedence: use the hint when present and not
Unknown; else map the stat mode bits; else Unknown. -/
def resolveEntryTypeSpec (hint : Option DType) (statInfo : Option StatBuf) : DType :=
  match hint with
  | some d =>
    if d ≠ DType.unknown then d
    else
      match statInfo with
      | some s => modeToDType s.mode
      | none => DType.unknown
  | none =>
    match statInfo with
    | some s => modeToDType s.mode
    | none => DType.unknown

/-- The claim's reading of "the entry is a non-directory" (spec 4.C:
anything typed as directory is rejected; anything of unknown type with
no stat is rejected). -/
def nonDirectoryClaim (hint : Option DType) (statInfo : Option StatBuf) : Prop :=
  resolveEntryTypeSpec hint statInfo ≠ DType.dir ∧
  (resolveEntryTypeSpec hint statInfo = DType.unknown → statInfo ≠ none)

/-- The claim's reading of one exact/less/greater triple: the field is
equal to the exact threshold, strictly below the less threshold, and
strictly above the greater threshold, for each threshold that is
active. -/
def tripleHoldsClaim (t : FilterTriple) (field : Nat) : Prop :=
  (∀ v, t.exact = some v → field = v) ∧
  (∀ v, t.less = some v → field < v) ∧
  (∀ v, t.greater = some v → v < field)

/-- The claim's acceptance condition for the size/time filter (claim
C4): no flag active, or non-directory with stat info present whose
size/atime/ctime/mtime satisfy every active threshold. -/
def sizeTimeClaimAccept (cfg : Config) (hint : Option DType)
    (statInfo : Option StatBuf) : Prop :=
  hasSizeTimeFilterFlags cfg = false ∨
  (nonDirectoryClaim hint statInfo ∧
   ∃ s, statInfo = some s ∧
     tripleHoldsClaim cfg.sizeF s.size ∧
     tripleHoldsClaim cfg.atimeF s.atime ∧
     tripleHoldsClaim cfg.ctimeF s.ctime ∧
     tripleHoldsClaim cfg.mtimeF s.mtime)

/-- Hint/stat agreement for one filesystem object: when both a
definite dirent hint and a stat buffer are present they describe the
same inode, so they agree on directory-ness. A claim about "entries"
only concerns such consistent pairs. -/
def hintStatConsistent (hint : Option DType) (statInfo : Option StatBuf) : Prop :=
  ∀ d s, hint = some d → d ≠ DType.unknown → statInfo = some s →
    (d = DType.dir ↔ S_ISDIR s.mode = true)

/-- Claim C3 as stated: the placeholder is substituted in every argv
element including element 0, each element is single-quoted, and the
results are concatenated. -/
def execBuildCommandClaim (cmdLineStrVec : List (List Char))
    (entryPath : List Char) : List Char :=
  (cmdLineStrVec.map
    (fun a => quoteWrap (replacePathPlaceholerWithPath a entryPath))).flatten

/-- Substitution applied to the elements of index >= 1 only. -/
def substIfNotFirst (entryPath : List Char) (i : Nat) (a : List Char) : List Char :=
  if i = 0 then a else replacePathPlaceholerWithPath a entryPath

/-- Claim C3 amended: the placeholder is substituted in every argv
element except the first (the executable name, which is quoted
verbatim); each element is single-quoted and the results are
concatenated. -/
def execBuildCommandAmended (cmdLineStrVec : List (List Char))
    (entryPath : List Char) : List Char :=
  (cmdLineStrVec.enum.map
    (fun p => quoteWrap (substIfNotFirst entryPath p.1 p.2))).flatten

/-- Claim C10's description of replacement: scan the subject left to
right; each (non-overlapping) occurrence of the placeholder is
replaced by the path exactly once, and the scan continues after the
inserted path, so occurrences inside the inserted text are never
replaced again. -/
def specReplaceAll (path : List Char) : List Char → List Char
  | a :: b :: rest =>
    if a == braceL && b == braceR then path ++ specReplaceAll path rest
    else a :: specReplaceAll path (b :: rest)
  | l => l

/-- Number of records the print stage emitted. -/
def printedCount (evs : List Event) : Nat :=
  evs.countP (fun ev => ev.eff.printedRec.isSome)

/-- Number of entries that completed the pipeline (numFilterMatches
increments). -/
def matchedCount (evs : List Event) : Nat :=
  evs.countP (fun ev => ev.eff.matched)

/-- Claim C2 as stated, for one run: when filterMountID is set, every
entry the print stage emits has the device ID filterMountID. -/
def mountNoOutputClaim (cfg : Config) (roots : List RootSpec) : Prop :=
  cfg.filterMountID ≠ U64MAX →
  ∀ ev ∈ (runScan cfg roots zeroStats).2,
    ev.eff.printedRec.isSome = true → ev.entryDev = some cfg.filterMountID

/-- Claim C8 as stated, for one run: in plain (non-JSON) print mode
the number of emitted records equals the final numFilterMatches. -/
def plainCountClaim (cfg : Config) (roots : List RootSpec) : Prop :=
  cfg.printJSON = false →
  printedCount (runScan cfg roots zeroStats).2 =
    (runScan cfg roots zeroStats).1.numFilterMatches

/-! ## Concrete example inputs for counterexamples and witnesses -/

/-- Directory stat buffer (mode S_IFDIR | 0755) on device d. -/
def sbDirDev (d : Nat) : StatBuf :=
  { mode := 16877, dev := d, uid := 0, gid := 0, size := 4096,
    atime := 0, ctime := 0, mtime := 0 }

/-- Regular-file stat buffer (mode S_IFREG | 0644, size 10) on device d. -/
def sbRegDev (d : Nat) : StatBuf :=
  { mode := 33188, dev := d, uid := 0, gid := 0, size := 10,
    atime := 0, ctime := 0, mtime := 0 }

/-- Oracle of a healthy directory on device d. -/
def metaDirAt (d : Nat) : EntryMeta :=
  { dtype := DType.dir, statResult := some (sbDirDev d),
    aclAccess := XattrResult.noData, aclDefault := XattrResult.noData,
    openOk := true }

/-- Oracle of a healthy regular file on device d. -/
def metaRegAt (d : Nat) : EntryMeta :=
  { dtype := DType.reg, statResult := some (sbRegDev d),
    aclAccess := XattrResult.noData, aclDefault := XattrResult.noData,
    openOk := true }

/-- Oracle of a regular file (hint DT_REG) whose fstatat call fails,
e.g. because the file was unlinked between readdir and fstatat. -/
def metaStatFailReg : EntryMeta :=
  { dtype := DType.reg, statResult := none,
    aclAccess := XattrResult.noData, aclDefault := XattrResult.noData,
    openOk := true }

/-- A scan root on device 1 containing the mountpoint directory m
whose own st_dev is 2. -/
def fsMountEx : FsNode :=
  FsNode.mk ['r'] (metaDirAt 1) [FsNode.mk ['m'] (metaDirAt 2) []]

/-- A run with --xdev on fsMountEx: filterMountID is the root device 1
(statAll is forced true by the mount filter). -/
def cfgMountEx : Config := { statAll := true, filterMountID := 1 }

/-- The scan-path list of the mount example. -/
def rootsMountEx : List RootSpec := [{ path := ['r'], node := fsMountEx }]

/-- A scan root on device 1 containing one entry whose stat fails. -/
def fsStatFailEx : FsNode :=
  FsNode.mk ['r'] (metaDirAt 1) [FsNode.mk ['x'] metaStatFailReg []]

/-- A run with --copyto d --unlink and no filters (both options force
statAll true). -/
def cfgCopyEx : Config :=
  { statAll := true, copyDestDir := ['d'], unlinkFiles := true }

/-- The scan-path list of the copy/unlink example. -/
def rootsCopyEx : List RootSpec := [{ path := ['r'], node := fsStatFailEx }]

/-- A plain-mode run with --noprint. -/
def cfgNoPrintEx : Config := { printEntriesDisabled := true }

/-- The protocol state of one worker that entered popWait on an empty
stack: reachable from the initial state by one enterPopWait step. -/
def witQState : QState :=
  { numWorking := 0, numWaiting := 1, numDone := 0, stack := [], numWaiters := 1 }

/-- A configuration with an active --size +N filter (greater than 5
bytes; size filters force statAll true). -/
def cfgSizeWit : Config :=
  { statAll := true, sizeF := { exact := none, less := none, greater := some 5 } }

/-- The event the mount-example run produces for the scan root r. -/
def evRootMountEx : Event :=
  { path := ['r'], depth := 0, parentDev := none, entryDev := some 1, hint := none,
    statCalled := true, statUsed := some (sbDirDev 1),
    eff := { printedRec := some ['r'], execCmd := none, copyModeRead := none,
             unlinkModeRead := none, matched := true } }

/-! # Theorems -/

/-! ## C7: the default-ACL counter -/

/-- C7. ACL counter correctness: the claim (and the spec's Statistics
table, and the summary printer, which reports numDefaultACLsFound as
the number of default ACLs found) require a successful
system.posix_acl_default query on a directory to increment the
defaultACLs counter. The code instead increments numAccessACLsFound a
second time (Main.cpp line 310): on a directory carrying both ACLs the
access counter rises by two and numDefaultACLsFound never changes, on
any input whatsoever. -/
theorem acl_default_counter_bug :
    checkACLsUpdate { checkACLs := true } true XattrResult.success XattrResult.success
      zeroStats = { zeroStats with numAccessACLsFound := 2 } ∧
    ∀ cfg isDirectory accessRes defaultRes st,
      (checkACLsUpdate cfg isDirectory accessRes defaultRes st).numDefaultACLsFound =
        st.numDefaultACLsFound := by
  refine ⟨rfl, ?_⟩
  intro cfg isDirectory accessRes defaultRes st
  unfold checkACLsUpdate
  split
  · rfl
  · dsimp only
    split <;> split <;> (try split) <;> rfl

/-! ## C1: the popWait quiescence protocol -/

theorem qinv_init (n : Nat) (stack0 : List Nat) : QInv n (initQState n stack0) := by
  refine ⟨?_, ?_, ?_⟩ <;> simp [initQState, QInv]

theorem qinv_step {n : Nat} {s t : QState} (hs : QInv n s) (hst : QStep n s t) :
    QInv n t := by
  obtain ⟨h1, h2, h3⟩ := hs
  cases hst with
  | pushItem item h =>
    refine ⟨?_, ?_, ?_⟩ <;> dsimp only
    · exact h1
    · exact h2
    · intro hd
      exact absurd (h3 hd).2 (by omega)
  | enterPopWait h =>
    refine ⟨?_, ?_, ?_⟩ <;> dsimp only
    · omega
    · omega
    · intro hd
      exact absurd (h3 hd).2 (by omega)
  | popItem x rest h hs' =>
    refine ⟨?_, ?_, ?_⟩ <;> dsimp only
    · omega
    · omega
    · intro hd
      have h3' := h3 hd
      rw [h3'.1] at hs'
      exact absurd hs'.symm (List.cons_ne_nil x rest)
  | scanDone h hempty hq =>
    refine ⟨?_, ?_, ?_⟩ <;> dsimp only
    · omega
    · omega
    · intro _
      exact ⟨hempty, by omega⟩

theorem qinv_reachable {n : Nat} {stack0 : List Nat} {s : QState}
    (h : QReachable n stack0 s) : QInv n s := by
  unfold QReachable at h
  induction h with
  | refl => exact qinv_init n stack0
  | tail hr hstep ih => exact qinv_step ih hstep

/-- C1. Quiescence termination protocol: in every reachable state of a
run with n worker threads, (1) some waiter observes the terminal
condition of popWait (empty stack and numWaiters == numThreads) iff
every worker is simultaneously inside popWait with the stack empty --
in particular no worker is executing scan(), so no push can race with
the detection; (2) once any worker has signalled termination
(ScanDoneException), the stack is empty, numWaiters still equals n
(the terminal path never decrements it) and no worker is executing
scan(); hence (3) every other worker that subsequently wakes inside
the wait loop observes the same terminal condition. -/
theorem popWait_quiescence_protocol (n : Nat) (stack0 : List Nat) (s : QState)
    (hreach : QReachable n stack0 s) :
    (quiescenceObserved n s ↔
      (s.stack = [] ∧ s.numWorking = 0 ∧ 0 < s.numWaiting)) ∧
    (0 < s.numDone → s.stack = [] ∧ s.numWaiters = n ∧ s.numWorking = 0) ∧
    (0 < s.numDone → 0 < s.numWaiting → quiescenceObserved n s) := by
  obtain ⟨h1, h2, h3⟩ := qinv_reachable hreach
  refine ⟨⟨?_, ?_⟩, ?_, ?_⟩
  · rintro ⟨hw, hstack, hwaiters⟩
    exact ⟨hstack, by omega, hw⟩
  · rintro ⟨hstack, hworking, hw⟩
    exact ⟨hw, hstack, by omega⟩
  · intro hd
    obtain ⟨hstack, hworking⟩ := h3 hd
    exact ⟨hstack, by omega, hworking⟩
  · intro hd hw
    obtain ⟨hstack, hworking⟩ := h3 hd
    exact ⟨hw, hstack, by omega⟩

/-- Witness for C1 at a concrete reachable state: one thread, empty
initial stack, after the single enterPopWait step. -/
theorem popWait_quiescence_protocol_witness :
    (quiescenceObserved 1 witQState ↔
      (witQState.stack = [] ∧ witQState.numWorking = 0 ∧ 0 < witQState.numWaiting)) ∧
    (0 < witQState.numDone →
      witQState.stack = [] ∧ witQState.numWaiters = 1 ∧ witQState.numWorking = 0) ∧
    (0 < witQState.numDone → 0 < witQState.numWaiting → quiescenceObserved 1 witQState) :=
  popWait_quiescence_protocol 1 [] witQState
    (QReach.tail (QReach.refl _)
      (QStep.enterPopWait (initQState 1 []) (by decide)))

/-! ## C10: placeholder replacement -/

theorem specReplaceAll_of_none (path : List Char) {l : List Char}
    (h : findPlaceholder l = none) : specReplaceAll path l = l := by
  induction l using findPlaceholder.induct with
  | case1 a b rest hab =>
    rw [findPlaceholder] at h
    simp [hab] at h
  | case2 a b rest hab ih =>
    rw [findPlaceholder] at h
    simp [hab] at h
    rw [specReplaceAll]
    simp [hab, ih h]
  | case3 t ht =>
    rw [specReplaceAll]
    exact ht

theorem specReplaceAll_of_some (path : List Char) {l : List Char} {q : Nat}
    (h : findPlaceholder l = some q) :
    specReplaceAll path l = l.take q ++ path ++ specReplaceAll path (l.drop (q + 2)) := by
  induction l using findPlaceholder.induct generalizing q with
  | case1 a b rest hab =>
    rw [findPlaceholder] at h
    simp [hab] at h
    subst h
    rw [specReplaceAll]
    simp [hab]
  | case2 a b rest hab ih =>
    rw [findPlaceholder] at h
    simp [hab] at h
    obtain ⟨q0, hq0, rfl⟩ := h
    rw [specReplaceAll, if_neg hab]
    rw [ih hq0]
    have h3 : q0 + 1 + 2 = (q0 + 2) + 1 := by omega
    rw [h3, List.take_succ_cons, List.drop_succ_cons]
    simp
  | case3 t ht =>
    rw [findPlaceholder] at h
    · exact absurd h (by simp)
    · exact ht

theorem findFrom_append (done rest : List Char) :
    findFrom (done ++ rest) done.length = (findPlaceholder rest).map (· + done.length) := by
  unfold findFrom
  rw [List.drop_left]

theorem replaceLoop_append (path : List Char) :
    ∀ fuel rest done, rest.length ≤ fuel →
      replaceLoop (done ++ rest) path done.length = done ++ specReplaceAll path rest := by
  intro fuel
  induction fuel with
  | zero =>
    intro rest done hlen
    have hrest : rest = [] := List.eq_nil_of_length_eq_zero (by omega)
    subst hrest
    rw [replaceLoop]
    split
    · simp [specReplaceAll]
    · rename_i q' heq
      rw [findFrom_append] at heq
      simp [findPlaceholder] at heq
  | succ n ih =>
    intro rest done hlen
    rw [replaceLoop]
    split
    · rename_i heq
      rw [findFrom_append] at heq
      cases hf : findPlaceholder rest with
      | none => rw [specReplaceAll_of_none path hf]
      | some q => rw [hf] at heq; simp at heq
    · rename_i q' heq
      rw [findFrom_append] at heq
      cases hf : findPlaceholder rest with
      | none => rw [hf] at heq; simp at heq
      | some q =>
        rw [hf] at heq
        simp only [Option.map_some'] at heq
        obtain rfl := (Option.some.inj heq).symm
        have hco : q + done.length = done.length + q := Nat.add_comm q done.length
        rw [hco]
        have hb := findPlaceholder_bounds hf
        have htk : (done ++ rest).take (done.length + q) = done ++ rest.take q := by
          simp [List.take_append]
        have hdr : (done ++ rest).drop (done.length + q + 2) = rest.drop (q + 2) := by
          have : done.length + q + 2 = done.length + (q + 2) := by omega
          rw [this]
          simp [List.drop_append]
        have hra : replaceAtPos (done ++ rest) (done.length + q) path =
            (done ++ rest.take q ++ path) ++ rest.drop (q + 2) := by
          unfold replaceAtPos
          rw [htk, hdr]
          try simp [List.append_assoc]
        have hpos : done.length + q + path.length = (done ++ rest.take q ++ path).length := by
          simp [List.length_append, List.length_take]
          try omega
        rw [hra, hpos, ih (rest.drop (q + 2)) (done ++ rest.take q ++ path)
          (by simp [List.length_drop]; omega)]
        rw [specReplaceAll_of_some path hf]
        simp [List.append_assoc]

/-- Shared form of the C10 result: the position-based find/replace
loop of Main.cpp computes exactly the single left-to-right
non-overlapping replacement. -/
theorem replacePath_eq_specReplaceAll (subject path : List Char) :
    replacePathPlaceholerWithPath subject path = specReplaceAll path subject := by
  have h := replaceLoop_append path subject.length subject [] (le_refl _)
  simpa [replacePathPlaceholerWithPath] using h

/-- C10. replacePathPlaceholerWithPath terminates on every subject and
path (it is a total function of this development, defined by
well-founded recursion on the distance from the search position to the
end of the subject), and its result is the subject with each original
left-to-right non-overlapping placeholder occurrence replaced by the
path exactly once; because the search position advances past each
inserted path, occurrences of the placeholder inside the inserted path
text (specReplaceAll's recursion on the untouched remainder) are never
replaced again -- including when the path itself contains the
placeholder. -/
theorem replace_placeholder_correct (subject path : List Char) :
    replacePathPlaceholerWithPath subject path = specReplaceAll path subject :=
  replacePath_eq_specReplaceAll subject path

/-! ## C3: exec placeholder substitution -/

/-- C3 counterexample. With argv = [the placeholder token] and entry
path p, execSystemCommand quotes the executable element verbatim
instead of substituting the path into it: the claim's reading
(substitute in every element including the first) predicts a different
command string. -/
theorem exec_placeholder_counterexample :
    execBuildCommand [[braceL, braceR]] ['p'] ≠
      execBuildCommandClaim [[braceL, braceR]] ['p'] := by
  simp only [execBuildCommand, execBuildCommandClaim, List.map_cons, List.map_nil,
    replacePath_eq_specReplaceAll]
  decide

theorem enumFrom_subst_map (entryPath : List Char) :
    ∀ (args : List (List Char)) (k : Nat), k ≠ 0 →
      ((args.enumFrom k).map
        (fun p => quoteWrap (substIfNotFirst entryPath p.1 p.2))).flatten =
      (args.map (fun a => quoteWrap (replacePathPlaceholerWithPath a entryPath))).flatten := by
  intro args
  induction args with
  | nil => intro k _; simp
  | cons a as ih =>
    intro k hk
    simp only [List.enumFrom_cons, List.map_cons, List.flatten_cons]
    rw [ih (k + 1) (by omega)]
    simp [substIfNotFirst, hk]

/-- C3 amended. When execCmdLine is non-empty, the exec stage
substitutes every occurrence of the placeholder token in every argv
element EXCEPT the first (the executable name, element 0, is
single-quoted verbatim), single-quotes each element, and concatenates
the quoted elements separated by spaces into the string handed to the
system shell. -/
theorem exec_placeholder_amended (cmdLineStrVec : List (List Char))
    (entryPath : List Char) :
    execBuildCommand cmdLineStrVec entryPath =
      execBuildCommandAmended cmdLineStrVec entryPath := by
  cases cmdLineStrVec with
  | nil => rfl
  | cons exe args =>
    unfold execBuildCommand execBuildCommandAmended
    rw [List.enum_cons]
    simp only [List.map_cons, List.flatten_cons]
    rw [enumFrom_subst_map entryPath args 1 (by omega)]
    simp [substIfNotFirst]

/-! ## C4: size/time filter semantics -/

theorem checkELG_iff (t : FilterTriple) (field : Nat) :
    checkExactLessGreaterVal t field = true ↔ tripleHoldsClaim t field := by
  obtain ⟨e, l, g⟩ := t
  cases e <;> cases l <;> cases g <;>
    simp [checkExactLessGreaterVal, tripleHoldsClaim, and_assoc]

theorem modeToDType_eq_dir (m : Nat) :
    modeToDType m = DType.dir ↔ S_ISDIR m = true := by
  unfold modeToDType S_ISDIR S_ISBLK S_ISCHR S_ISFIFO S_ISLNK S_ISREG S_ISSOCK
  split_ifs <;> simp_all [S_IFMT, S_IFDIR, S_IFBLK, S_IFCHR, S_IFIFO, S_IFLNK,
    S_IFREG, S_IFSOCK]

theorem entryIsFile_iff_nonDir {de : Option DType} {sb : Option StatBuf}
    (hcons : hintStatConsistent de sb) :
    entryIsFile de sb = true ↔ nonDirectoryClaim de sb := by
  cases de with
  | none =>
    cases sb with
    | none => simp [entryIsFile, nonDirectoryClaim, resolveEntryTypeSpec]
    | some s =>
      simp [entryIsFile, nonDirectoryClaim, resolveEntryTypeSpec, modeToDType_eq_dir]
  | some d =>
    cases sb with
    | none =>
      cases d <;>
        simp [entryIsFile, nonDirectoryClaim, resolveEntryTypeSpec]
    | some s =>
      have hds := hcons d s rfl
      cases d <;>
        simp_all [entryIsFile, nonDirectoryClaim, resolveEntryTypeSpec,
          modeToDType_eq_dir]

/-- C4. Size/time filter semantics: the filter accepts an entry (a
consistent hint/stat pair) iff no size/time flag is active, or the
entry is a non-directory with stat info present whose size, atime,
ctime and mtime are equal to each active exact threshold, strictly
below each active less threshold and strictly above each active
greater threshold. -/
theorem size_time_filter_semantics (cfg : Config) (de : Option DType)
    (sb : Option StatBuf) (hcons : hintStatConsistent de sb) :
    filterPrintEntryBySizeOrTime cfg de sb = true ↔ sizeTimeClaimAccept cfg de sb := by
  unfold filterPrintEntryBySizeOrTime sizeTimeClaimAccept
  by_cases hflag : hasSizeTimeFilterFlags cfg = true
  · simp only [hflag, Bool.not_true, Bool.false_eq_true, if_false]
    have hnd := entryIsFile_iff_nonDir hcons
    cases sb with
    | none =>
      cases hef : entryIsFile de none <;> simp_all
    | some s =>
      cases hef : entryIsFile de (some s) <;>
        simp_all [checkELG_iff, and_assoc]
  · simp only [Bool.not_eq_true] at hflag
    simp [hflag]

/-- Witness for C4 at a concrete consistent entry: a regular file of
size 10 under an active --size +5 filter. -/
theorem size_time_filter_semantics_witness :
    filterPrintEntryBySizeOrTime cfgSizeWit (some DType.reg) (some (sbRegDev 1)) = true ↔
      sizeTimeClaimAccept cfgSizeWit (some DType.reg) (some (sbRegDev 1)) :=
  size_time_filter_semantics cfgSizeWit (some DType.reg) (some (sbRegDev 1))
    (by
      intro d s hd _ hs
      cases hd
      cases hs
      decide)

/-! ## Traversal lemmas shared by C2, C6, C8, C9 -/

theorem preStats_matches (cfg : Config) (meta : EntryMeta) (st : ScanStats) :
    (preStats cfg meta st).numFilterMatches = st.numFilterMatches := by
  unfold preStats
  split <;> split <;> rfl

theorem checkACLsUpdate_matches (cfg : Config) (isDir : Bool)
    (a d : XattrResult) (st : ScanStats) :
    (checkACLsUpdate cfg isDir a d st).numFilterMatches = st.numFilterMatches := by
  unfold checkACLsUpdate
  split
  · rfl
  · dsimp only
    split <;> split <;> (try split) <;> rfl

theorem entryStats_matches (cfg : Config) (meta : EntryMeta) (isDir : Bool)
    (eff : EntryEffects) (st : ScanStats) :
    (entryStats cfg meta isDir eff st).numFilterMatches =
      st.numFilterMatches + (if eff.matched then 1 else 0) := by
  unfold entryStats applyMatched
  cases hm : eff.matched <;>
    cases hd : isDir <;>
      simp [hm, hd, checkACLsUpdate_matches]

/-- Strong induction over forests, following the recursion of
scanFrom: the conclusion may be assumed for the children of the head
node and for the tail. -/
theorem fsList_induction (P : List FsNode → Prop)
    (hnil : P [])
    (hcons : ∀ name meta children rest,
      P children → P rest → P (FsNode.mk name meta children :: rest)) :
    ∀ entries, P entries := by
  have key : ∀ (N : Nat) (entries : List FsNode), fsSizeList entries ≤ N → P entries := by
    intro N
    induction N with
    | zero =>
      intro entries h
      cases entries with
      | nil => exact hnil
      | cons e rest =>
        cases e with
        | mk nm mt ch => simp [fsSizeList] at h
    | succ n ih =>
      intro entries h
      cases entries with
      | nil => exact hnil
      | cons e rest =>
        cases e with
        | mk nm mt ch =>
          simp only [fsSizeList] at h
          exact hcons nm mt ch rest (ih ch (by omega)) (ih rest (by omega))
  exact fun entries => key (fsSizeList entries) entries (le_refl _)

theorem scanFrom_matches (cfg : Config) :
    ∀ (entries : List FsNode) (dirPath : List Char) (dirDepth : Nat)
      (parentDev : Option Nat) (st : ScanStats),
      (scanFrom cfg dirPath dirDepth parentDev entries st).1.numFilterMatches =
        st.numFilterMatches +
          matchedCount (scanFrom cfg dirPath dirDepth parentDev entries st).2 := by
  refine fsList_induction _ ?_ ?_
  · intro dirPath dirDepth parentDev st
    simp [scanFrom, matchedCount]
  · intro name meta children rest ihc ihr dirPath dirDepth parentDev st
    rw [scanFrom]
    dsimp only
    rw [ihr]
    simp only [matchedCount, List.countP_cons, List.countP_append]
    repeat' split
    all_goals try rw [ihc]
    all_goals simp only [matchedCount, List.countP_nil, entryStats_matches, preStats_matches]
    all_goals try simp_all
    all_goals omega

theorem applyMatched_matches (eff : EntryEffects) (st : ScanStats) :
    (applyMatched eff st).numFilterMatches =
      st.numFilterMatches + (if eff.matched then 1 else 0) := by
  unfold applyMatched
  split <;> simp_all

/-- Destructor for membership in the descend branch of scanFrom: an
event of the inner pair comes from the recursive call, and the descend
condition held while the quitAfterFirstMatch and opendir-failure cuts
did not. -/
theorem mem_descend {ev : Event} {dod quit opf : Bool} {st5 bump : ScanStats}
    {recres : ScanStats × List Event}
    (hev : ev ∈ (if dod then
        (if quit then (st5, ([] : List Event)) else if opf then (bump, []) else recres)
      else (st5, [])).2) :
    dod = true ∧ quit = false ∧ opf = false ∧ ev ∈ recres.2 := by
  cases hdod : dod with
  | false => simp [hdod] at hev
  | true =>
    cases hq : quit with
    | true => simp [hdod, hq] at hev
    | false =>
      cases ho : opf with
      | true => simp [hdod, hq, ho] at hev
      | false =>
        simp [hdod, hq, ho] at hev
        exact ⟨rfl, rfl, rfl, hev⟩

theorem scanFrom_depth_le (cfg : Config) :
    ∀ (entries : List FsNode) (dirPath : List Char) (dirDepth : Nat)
      (parentDev : Option Nat) (st : ScanStats),
      dirDepth ≤ cfg.maxDirDepth →
      ∀ ev ∈ (scanFrom cfg dirPath dirDepth parentDev entries st).2,
        ev.depth ≤ cfg.maxDirDepth := by
  refine fsList_induction _ ?_ ?_
  · intro dp dd pd st _ ev hev
    simp [scanFrom] at hev
  · intro name meta children rest ihc ihr dp dd pd st hdd ev hev
    rw [scanFrom] at hev
    dsimp only at hev
    rw [List.mem_cons] at hev
    rcases hev with rfl | hev
    · exact hdd
    · rw [List.mem_append] at hev
      rcases hev with hev | hev
      · obtain ⟨hdod, -, -, hev⟩ := mem_descend hev
        simp only [Bool.and_eq_true, decide_eq_true_eq] at hdod
        obtain ⟨⟨-, -⟩, hlt⟩ := hdod
        exact ihc _ _ _ _ (by omega) ev hev
      · exact ihr _ _ _ _ hdd ev hev

theorem scanFrom_parentDev (cfg : Config) (hm : cfg.filterMountID ≠ U64MAX) :
    ∀ (entries : List FsNode) (dirPath : List Char) (dirDepth : Nat)
      (parentDev : Option Nat) (st : ScanStats),
      ∀ ev ∈ (scanFrom cfg dirPath dirDepth parentDev entries st).2,
        (ev.depth = dirDepth ∧ ev.parentDev = parentDev) ∨
          ev.parentDev = some cfg.filterMountID := by
  refine fsList_induction _ ?_ ?_
  · intro dp dd pd st ev hev
    simp [scanFrom] at hev
  · intro name meta children rest ihc ihr dp dd pd st ev hev
    rw [scanFrom] at hev
    dsimp only at hev
    rw [List.mem_cons] at hev
    rcases hev with rfl | hev
    · exact Or.inl ⟨rfl, rfl⟩
    · rw [List.mem_append] at hev
      rcases hev with hev | hev
      · obtain ⟨hdod, -, -, hev⟩ := mem_descend hev
        simp only [Bool.and_eq_true] at hdod
        obtain ⟨⟨-, hmount⟩, -⟩ := hdod
        have hmid : Option.map StatBuf.dev meta.statResult = some cfg.filterMountID := by
          cases hns : needStat cfg meta.dtype with
          | false =>
            simp [hns, doDescendMountOf, hm] at hmount
          | true =>
            cases hsr : meta.statResult with
            | none => simp [hns, hsr, doDescendMountOf, hm] at hmount
            | some s =>
              simp [hns, hsr, doDescendMountOf, hm, beq_iff_eq] at hmount
              simp [hsr, hmount]
        rcases ihc _ _ _ _ ev hev with ⟨-, h⟩ | h
        · right
          rw [h, hmid]
        · right
          exact h
      · exact ihr _ _ _ _ ev hev

theorem scanFrom_eff (cfg : Config) :
    ∀ (entries : List FsNode) (dirPath : List Char) (dirDepth : Nat)
      (parentDev : Option Nat) (st : ScanStats),
      ∀ ev ∈ (scanFrom cfg dirPath dirDepth parentDev entries st).2,
        ∃ p de sb, ev.eff = processDiscoveredEntry cfg p de sb := by
  refine fsList_induction _ ?_ ?_
  · intro dp dd pd st ev hev
    simp [scanFrom] at hev
  · intro name meta children rest ihc ihr dp dd pd st ev hev
    rw [scanFrom] at hev
    dsimp only at hev
    rw [List.mem_cons] at hev
    rcases hev with rfl | hev
    · exact ⟨_, _, _, rfl⟩
    · rw [List.mem_append] at hev
      rcases hev with hev | hev
      · obtain ⟨-, -, -, hev⟩ := mem_descend hev
        exact ihc _ _ _ _ ev hev
      · exact ihr _ _ _ _ ev hev

theorem processRoots_matches (cfg : Config) :
    ∀ (roots : List RootSpec) (st : ScanStats),
      (processRoots cfg roots st).1.numFilterMatches =
        st.numFilterMatches + matchedCount (processRoots cfg roots st).2.1 := by
  intro roots
  induction roots with
  | nil => intro st; simp [processRoots, matchedCount]
  | cons r rest ih =>
    intro st
    rw [processRoots]
    cases hsr : r.node.meta.statResult with
    | none =>
      dsimp only
      exact ih st
    | some sb =>
      dsimp only
      rw [ih]
      simp only [matchedCount, List.countP_cons]
      rw [applyMatched_matches]
      dsimp only
      omega

theorem processRoots_events (cfg : Config) :
    ∀ (roots : List RootSpec) (st : ScanStats),
      ∀ ev ∈ (processRoots cfg roots st).2.1,
        ev.depth = 0 ∧ ev.parentDev = none ∧
          ∃ p de sb, ev.eff = processDiscoveredEntry cfg p de sb := by
  intro roots
  induction roots with
  | nil => intro st ev hev; simp [processRoots] at hev
  | cons r rest ih =>
    intro st ev hev
    rw [processRoots] at hev
    cases hsr : r.node.meta.statResult with
    | none =>
      rw [hsr] at hev
      exact ih _ ev hev
    | some sb =>
      rw [hsr] at hev
      dsimp only at hev
      rw [List.mem_cons] at hev
      rcases hev with rfl | hev
      · exact ⟨rfl, rfl, _, _, _, rfl⟩
      · exact ih _ ev hev

theorem processRoots_pushed (cfg : Config) :
    ∀ (roots : List RootSpec) (st : ScanStats),
      ∀ r ∈ (processRoots cfg roots st).2.2,
        r ∈ roots ∧ 0 < cfg.maxDirDepth := by
  intro roots
  induction roots with
  | nil => intro st r hr; simp [processRoots] at hr
  | cons r0 rest ih =>
    intro st r hr
    rw [processRoots] at hr
    cases hsr : r0.node.meta.statResult with
    | none =>
      rw [hsr] at hr
      obtain ⟨h1, h2⟩ := ih _ r hr
      exact ⟨List.mem_cons_of_mem _ h1, h2⟩
    | some sb =>
      rw [hsr] at hr
      dsimp only at hr
      rw [List.mem_append] at hr
      rcases hr with hr | hr
      · revert hr
        split
        · rename_i hcond
          simp only [Bool.and_eq_true, decide_eq_true_eq] at hcond
          intro hr
          rw [List.mem_singleton] at hr
          subst hr
          exact ⟨List.mem_cons_self _ _, hcond.2⟩
        · intro hr
          simp at hr
      · obtain ⟨h1, h2⟩ := ih _ r hr
        exact ⟨List.mem_cons_of_mem _ h1, h2⟩

theorem scanDir_matches (cfg : Config) (dirPath : List Char) (node : FsNode)
    (dirDepth : Nat) (st : ScanStats) :
    (scanDir cfg dirPath node dirDepth st).1.numFilterMatches =
      st.numFilterMatches + matchedCount (scanDir cfg dirPath node dirDepth st).2 := by
  unfold scanDir
  split
  · simp [matchedCount]
  · split
    · simp [matchedCount]
    · exact scanFrom_matches cfg _ _ _ _ _

theorem scanDir_mem (cfg : Config) (dirPath : List Char) (node : FsNode)
    (dirDepth : Nat) (st : ScanStats) :
    ∀ ev ∈ (scanDir cfg dirPath node dirDepth st).2,
      ev ∈ (scanFrom cfg dirPath dirDepth (node.meta.statResult.map StatBuf.dev)
        node.children st).2 := by
  intro ev hev
  unfold scanDir at hev
  split at hev
  · simp at hev
  · split at hev
    · simp at hev
    · exact hev

theorem runThreads_matches (cfg : Config) :
    ∀ (pushed : List RootSpec) (st : ScanStats),
      (runThreads cfg pushed st).1.numFilterMatches =
        st.numFilterMatches + matchedCount (runThreads cfg pushed st).2 := by
  intro pushed
  induction pushed with
  | nil => intro st; simp [runThreads, matchedCount]
  | cons r rest ih =>
    intro st
    rw [runThreads]
    dsimp only
    rw [ih, scanDir_matches]
    simp only [matchedCount, List.countP_append]
    omega

theorem runThreads_mem (cfg : Config) :
    ∀ (pushed : List RootSpec) (st : ScanStats),
      ∀ ev ∈ (runThreads cfg pushed st).2,
        ∃ r ∈ pushed, ∃ st2,
          ev ∈ (scanDir cfg r.path r.node 1 st2).2 := by
  intro pushed
  induction pushed with
  | nil => intro st ev hev; simp [runThreads] at hev
  | cons r rest ih =>
    intro st ev hev
    rw [runThreads] at hev
    dsimp only at hev
    rw [List.mem_append] at hev
    rcases hev with hev | hev
    · exact ⟨r, List.mem_cons_self _ _, st, hev⟩
    · obtain ⟨r2, hr2, st2, hev2⟩ := ih _ ev hev
      exact ⟨r2, List.mem_cons_of_mem _ hr2, st2, hev2⟩

theorem runScan_matches (cfg : Config) (roots : List RootSpec) (st : ScanStats) :
    (runScan cfg roots st).1.numFilterMatches =
      st.numFilterMatches + matchedCount (runScan cfg roots st).2 := by
  unfold runScan
  dsimp only
  rw [runThreads_matches, processRoots_matches]
  simp only [matchedCount, List.countP_append]
  omega

theorem runScan_mem (cfg : Config) (roots : List RootSpec) (st : ScanStats) :
    ∀ ev ∈ (runScan cfg roots st).2,
      ev ∈ (processRoots cfg roots st).2.1 ∨
        ∃ r ∈ roots, 0 < cfg.maxDirDepth ∧ ∃ st2,
          ev ∈ (scanDir cfg r.path r.node 1 st2).2 := by
  intro ev hev
  unfold runScan at hev
  dsimp only at hev
  rw [List.mem_append] at hev
  rcases hev with hev | hev
  · exact Or.inl hev
  · obtain ⟨r, hr, st2, hev2⟩ := runThreads_mem cfg _ _ ev hev
    obtain ⟨hroot, hmax⟩ := processRoots_pushed cfg roots st r hr
    exact Or.inr ⟨r, hroot, hmax, st2, hev2⟩

theorem countP_congr_mem {α : Type} (l : List α) (p q : α → Bool)
    (h : ∀ a ∈ l, p a = q a) : l.countP p = l.countP q := by
  induction l with
  | nil => rfl
  | cons a as ih =>
    simp only [List.countP_cons]
    rw [ih (fun b hb => h b (List.mem_cons_of_mem _ hb)),
      h a (List.mem_cons_self _ _)]

theorem processDiscoveredEntry_printed (cfg : Config)
    (hp : cfg.printEntriesDisabled = false) (p : List Char) (de : Option DType)
    (sb : Option StatBuf) :
    (processDiscoveredEntry cfg p de sb).printedRec.isSome =
      (processDiscoveredEntry cfg p de sb).matched := by
  unfold processDiscoveredEntry
  split <;> simp [noEffects, hp]

theorem runScan_eff (cfg : Config) (roots : List RootSpec) (st : ScanStats) :
    ∀ ev ∈ (runScan cfg roots st).2,
      ∃ p de sb, ev.eff = processDiscoveredEntry cfg p de sb := by
  intro ev hev
  rcases runScan_mem cfg roots st ev hev with h | ⟨r, -, -, st2, h⟩
  · exact (processRoots_events cfg roots st ev h).2.2
  · exact scanFrom_eff cfg _ _ _ _ _ ev (scanDir_mem cfg _ _ _ _ ev h)

/-! ## C6: max-depth invariant -/

/-- C6. Max-depth no-output invariant: in every run, every processed
entry (in particular every printed one) has depth at most maxDirDepth,
with scan paths at depth 0: the walker descends into a discovered
directory only under dirDepth < maxDirDepth (the doDescendDepth
conjunct of scanFrom), and main() pushes a scan root only when
0 < maxDirDepth, so every event of runScan is within the bound. -/
theorem max_depth_no_output (cfg : Config) (roots : List RootSpec) (st : ScanStats) :
    ∀ ev ∈ (runScan cfg roots st).2, ev.depth ≤ cfg.maxDirDepth := by
  intro ev hev
  rcases runScan_mem cfg roots st ev hev with h | ⟨r, -, hmax, st2, h⟩
  · have h0 := (processRoots_events cfg roots st ev h).1
    omega
  · exact scanFrom_depth_le cfg _ _ _ _ _ (by omega) ev (scanDir_mem cfg _ _ _ _ ev h)

/-- Witness for C6 at the root event of the mount example run. -/
theorem max_depth_no_output_witness :
    evRootMountEx.depth ≤ cfgMountEx.maxDirDepth :=
  max_depth_no_output cfgMountEx rootsMountEx zeroStats evRootMountEx
    (by simp [runScan, processRoots, runThreads, scanDir, scanFrom, rootsMountEx,
      fsMountEx, cfgMountEx, metaDirAt, sbDirDev, processDiscoveredEntry,
      filterPrintEntryByType, filterPrintEntryByName, filterPrintEntryByPath,
      filterPrintEntryBySizeOrTime, filterPrintEntryByUIDAndGID,
      hasSizeTimeFilterFlags, FilterTriple.unset, U64MAX, nullChar, needStat,
      applyMatched, checkACLsUpdate, preStats, entryStats, doDescendMountOf,
      S_ISDIR, S_IFMT, S_IFDIR, zeroStats, noEffects, FsNode.meta, FsNode.children,
      copyEntryModeRead, unlinkEntryModeRead, evRootMountEx])

/-! ## C2: mount filter -/

/-- C2 counterexample. In the run of cfgMountEx on fsMountEx (scan
root r on device 1, child directory m with st_dev 2, --xdev style
filterMountID = 1), the entry r/m is printed although its st_dev is 2:
the mount filter does not suppress output of the mountpoint entry
itself, only descent into it, so the claim "no entry whose st_dev
differs from filterMountID is output" fails. -/
theorem mount_filter_counterexample : ¬ mountNoOutputClaim cfgMountEx rootsMountEx := by
  intro h
  have h2 := h (by decide)
  simp [runScan, processRoots, runThreads, scanDir, scanFrom, rootsMountEx, fsMountEx,
    cfgMountEx, metaDirAt, sbDirDev, processDiscoveredEntry, filterPrintEntryByType,
    filterPrintEntryByName, filterPrintEntryByPath, filterPrintEntryBySizeOrTime,
    filterPrintEntryByUIDAndGID, hasSizeTimeFilterFlags, FilterTriple.unset, U64MAX,
    nullChar, needStat, applyMatched, checkACLsUpdate, preStats, entryStats,
    doDescendMountOf, S_ISDIR, S_IFMT, S_IFDIR, zeroStats, noEffects, FsNode.meta,
    FsNode.children, copyEntryModeRead, unlinkEntryModeRead] at h2

/-- C2 amended. When filterMountID is set, the device check governs
descent, not output: the walker never scans the children of a
directory whose stat failed or whose st_dev differs from filterMountID.
Hence every processed entry (in particular every output one) either is
a scan root itself (depth 0), or lies directly inside a scan root
(depth 1 -- main() pushes every scan-path directory without any device
check, and filterMountID is taken from the first scan path only, so
with several scan paths a root on another device is still scanned one
level deep), or lies directly in a directory whose st_dev equals
filterMountID. The discovered entry itself (e.g. a mountpoint
directory) may be output with a differing st_dev, but nothing beneath
it ever is. -/
theorem mount_filter_descend_only (cfg : Config) (roots : List RootSpec)
    (st : ScanStats) (hm : cfg.filterMountID ≠ U64MAX) :
    ∀ ev ∈ (runScan cfg roots st).2,
      ev.parentDev = none ∨ ev.depth = 1 ∨
        ev.parentDev = some cfg.filterMountID := by
  intro ev hev
  rcases runScan_mem cfg roots st ev hev with h | ⟨r, -, -, st2, h⟩
  · exact Or.inl (processRoots_events cfg roots st ev h).2.1
  · have h2 := scanDir_mem cfg _ _ _ _ ev h
    rcases scanFrom_parentDev cfg hm _ _ _ _ _ ev h2 with ⟨hdep, -⟩ | hp
    · exact Or.inr (Or.inl hdep)
    · exact Or.inr (Or.inr hp)

/-- Witness for C2 amended at the root event of the mount example. -/
theorem mount_filter_descend_only_witness :
    evRootMountEx.parentDev = none ∨ evRootMountEx.depth = 1 ∨
      evRootMountEx.parentDev = some cfgMountEx.filterMountID :=
  mount_filter_descend_only cfgMountEx rootsMountEx zeroStats (by decide)
    evRootMountEx
    (by simp [runScan, processRoots, runThreads, scanDir, scanFrom, rootsMountEx,
      fsMountEx, cfgMountEx, metaDirAt, sbDirDev, processDiscoveredEntry,
      filterPrintEntryByType, filterPrintEntryByName, filterPrintEntryByPath,
      filterPrintEntryBySizeOrTime, filterPrintEntryByUIDAndGID,
      hasSizeTimeFilterFlags, FilterTriple.unset, U64MAX, nullChar, needStat,
      applyMatched, checkACLsUpdate, preStats, entryStats, doDescendMountOf,
      S_ISDIR, S_IFMT, S_IFDIR, zeroStats, noEffects, FsNode.meta, FsNode.children,
      copyEntryModeRead, unlinkEntryModeRead, evRootMountEx])

/-! ## C8: plain-mode record count -/

/-- C8 counterexample. A plain-mode (non-JSON) run with --noprint
(cfgNoPrintEx on fsMountEx) emits 0 records while numFilterMatches
ends at 2: plain mode alone does not make the record count equal
filterMatches. -/
theorem plain_count_counterexample : ¬ plainCountClaim cfgNoPrintEx rootsMountEx := by
  intro h
  have h2 := h rfl
  simp [printedCount, runScan, processRoots, runThreads, scanDir, scanFrom,
    rootsMountEx, fsMountEx, cfgNoPrintEx, metaDirAt, sbDirDev,
    processDiscoveredEntry, filterPrintEntryByType, filterPrintEntryByName,
    filterPrintEntryByPath, filterPrintEntryBySizeOrTime, filterPrintEntryByUIDAndGID,
    hasSizeTimeFilterFlags, FilterTriple.unset, U64MAX, nullChar, needStat,
    applyMatched, checkACLsUpdate, preStats, entryStats, doDescendMountOf,
    S_ISDIR, S_IFMT, S_IFDIR, zeroStats, noEffects, FsNode.meta, FsNode.children,
    copyEntryModeRead, unlinkEntryModeRead] at h2

/-- C8 amended. In a plain (non-JSON) run with printing enabled (no
--noprint), the number of per-entry records emitted to stdout equals
the final numFilterMatches: every accepted entry is printed exactly
once right before the counter increment, and rejected entries produce
neither. -/
theorem plain_count_amended (cfg : Config) (roots : List RootSpec)
    (hjson : cfg.printJSON = false) (hp : cfg.printEntriesDisabled = false) :
    printedCount (runScan cfg roots zeroStats).2 =
      (runScan cfg roots zeroStats).1.numFilterMatches := by
  have key : printedCount (runScan cfg roots zeroStats).2 =
      matchedCount (runScan cfg roots zeroStats).2 := by
    unfold printedCount matchedCount
    apply countP_congr_mem
    intro ev hev
    obtain ⟨p, de, sb, heff⟩ := runScan_eff cfg roots zeroStats ev hev
    rw [heff]
    exact processDiscoveredEntry_printed cfg hp p de sb
  have hm := runScan_matches cfg roots zeroStats
  have hz : zeroStats.numFilterMatches = 0 := rfl
  omega

/-- Witness for C8 amended on the mount example run (printing enabled,
plain mode). -/
theorem plain_count_amended_witness :
    printedCount (runScan cfgMountEx rootsMountEx zeroStats).2 =
      (runScan cfgMountEx rootsMountEx zeroStats).1.numFilterMatches :=
  plain_count_amended cfgMountEx rootsMountEx rfl rfl

/-! ## C9: statInfo at the copy/unlink st_mode reads -/

/-- C9. The claim says an accepted entry whose stat failed never
reaches the st_mode reads of copyEntry/unlinkEntry. The code violates
this: in the run of cfgCopyEx (--copyto with --unlink, statAll forced
true, no filters) on fsStatFailEx, the entry r/x has hint DT_REG but a
failed fstatat, passes every filter (none is active), and reaches both
stages with statInfo = None -- the embedded stages record the
dereference of the NULL statBuf pointer that Main.cpp lines 656/889
perform. -/
theorem copy_unlink_nullderef_reachable :
    ∃ ev ∈ (runScan cfgCopyEx rootsCopyEx zeroStats).2,
      ev.eff.copyModeRead = some ModeRead.nullDeref ∧
        ev.eff.unlinkModeRead = some ModeRead.nullDeref := by
  simp [runScan, processRoots, runThreads, scanDir, scanFrom, rootsCopyEx,
    fsStatFailEx, cfgCopyEx, metaDirAt, metaStatFailReg, sbDirDev,
    processDiscoveredEntry, filterPrintEntryByType, filterPrintEntryByName,
    filterPrintEntryByPath, filterPrintEntryBySizeOrTime, filterPrintEntryByUIDAndGID,
    hasSizeTimeFilterFlags, FilterTriple.unset, U64MAX, nullChar, needStat,
    applyMatched, checkACLsUpdate, preStats, entryStats, doDescendMountOf,
    S_ISDIR, S_IFMT, S_IFDIR, zeroStats, noEffects, FsNode.meta, FsNode.children,
    copyEntryModeRead, unlinkEntryModeRead]

/-! ## C5: EntryTyper precedence and the stat decision -/

theorem dtypeToFindChar_modeToDType (m : Nat) :
    dtypeToFindChar (modeToDType m) = modeToMatchChar m := by
  unfold modeToDType modeToMatchChar
  split_ifs <;> rfl

/-- C5. EntryTyper precedence and stat decision. (1) Under an active
type filter, filterPrintEntryByType accepts an entry iff the find(1)
character of the resolved type tag -- the dirent hint when present and
not DT_UNKNOWN, else the tag mapped from the stat mode bits when stat
info is present, else Unknown (whose character matches no filter) --
equals searchType. (2) The stat syscall is issued for an entry iff
statAll is configured or the hint is DT_UNKNOWN. (3) Along the
traversal, the entry is processed (its event is emitted, heading the
remaining events, so a stat failure does not abort the directory
scan), with statCalled recording exactly the stat decision and with
the stat buffer handed to the pipeline being the fstatat result when
stat was issued (None on failure) and None otherwise. -/
theorem entry_typer_precedence_and_stat :
    (∀ (cfg : Config) (de : Option DType) (sb : Option StatBuf),
      cfg.searchType ≠ nullChar →
      (filterPrintEntryByType cfg de sb = true ↔
        dtypeToFindChar (resolveEntryTypeSpec de sb) = cfg.searchType)) ∧
    (∀ (cfg : Config) (d : DType),
      needStat cfg d = true ↔ (cfg.statAll = true ∨ d = DType.unknown)) ∧
    (∀ (cfg : Config) (dirPath : List Char) (dirDepth : Nat) (parentDev : Option Nat)
      (name : List Char) (meta : EntryMeta) (children rest : List FsNode)
      (st : ScanStats),
      ∃ ev evs,
        (scanFrom cfg dirPath dirDepth parentDev
          (FsNode.mk name meta children :: rest) st).2 = ev :: evs ∧
        ev.statCalled = needStat cfg meta.dtype ∧
        ev.statUsed = (if needStat cfg meta.dtype then meta.statResult else none) ∧
        ev.hint = some meta.dtype) := by
  refine ⟨?_, ?_, ?_⟩
  · intro cfg de sb hne
    have hch : (cfg.searchType == nullChar) = false := by
      simp [hne]
    unfold filterPrintEntryByType resolveEntryTypeSpec
    cases de with
    | none =>
      cases sb with
      | none =>
        simp [hch, dtypeToFindChar]
        exact fun h => hne h.symm
      | some s => simp [hch, dtypeToFindChar_modeToDType]
    | some d =>
      by_cases hd : d = DType.unknown
      · subst hd
        cases sb with
        | none =>
          simp [hch, dtypeToFindChar]
          exact fun h => hne h.symm
        | some s => simp [hch, dtypeToFindChar_modeToDType]
      · simp [hch, hd]
  · intro cfg d
    simp [needStat]
  · intro cfg dirPath dirDepth parentDev name meta children rest st
    rw [scanFrom]
    dsimp only
    exact ⟨_, _, rfl, rfl, rfl, rfl⟩

/-- Witness for C5 at concrete inputs: a --type f filter on a DT_REG
hint without stat info; the stat decision for a DT_UNKNOWN entry with
statAll off; and the scan of a directory holding one entry whose
fstatat fails. -/
theorem entry_typer_precedence_and_stat_witness :
    (filterPrintEntryByType { searchType := 'f' } (some DType.reg) none = true ↔
      dtypeToFindChar (resolveEntryTypeSpec (some DType.reg) none) =
        ({ searchType := 'f' } : Config).searchType) ∧
    (needStat {} DType.unknown = true ↔
      (({} : Config).statAll = true ∨ DType.unknown = DType.unknown)) ∧
    (∃ ev evs,
      (scanFrom {} ['r'] 1 none [FsNode.mk ['x'] metaStatFailReg []] zeroStats).2 =
        ev :: evs ∧
      ev.statCalled = needStat {} metaStatFailReg.dtype ∧
      ev.statUsed = (if needStat {} metaStatFailReg.dtype
        then metaStatFailReg.statResult else none) ∧
      ev.hint = some metaStatFailReg.dtype) :=
  ⟨entry_typer_precedence_and_stat.1 { searchType := 'f' } (some DType.reg) none
      (by decide),
    entry_typer_precedence_and_stat.2.1 {} DType.unknown,
    entry_typer_precedence_and_stat.2.2 {} ['r'] 1 none ['x'] metaStatFailReg [] []
      zeroStats⟩

end Elfindo
